import Mathlib

/-!
# SmartQ queue admission, assignment and wait-time estimation: a verification development

This file gives a shallow embedding, in Lean 4, of the queue subsystem of the
SmartQ web application, and proves (or refutes) the behavioural properties its
specification states about it.

The repository contains two schema variants:

* the first variant (`aiService.ts`, `queueController.ts`, model `Queue`):
  a flat `Queue` collection whose documents are individual participations;
  the public wait-time endpoint is served by this variant's `estimateWaitTime`;
* the second variant (`ai.service.ts`, `queueEntry.controller.ts`, models
  `Queue.model` / `QueueEntry.model` / `Counter.model`): queues are containers
  with `maxCapacity` / `currentCount`, entries are separate documents, and
  counters carry a rolling `averageServiceTime`.

Machine numbers are embedded as `ℤ` (millisecond timestamps, minute counts)
and `ℚ` (averages, scores, confidences); JavaScript `Math.round` is embedded
as `jsRound` below.  Database reads become pure functions over explicit lists
of documents; `try`/`catch` around an operation that can throw becomes an
`Option` with an explicit fallback.
-/

namespace SmartQ

/-- JavaScript `Math.round x`: round half away from zero toward positive
infinity, i.e. `⌊x + 1/2⌋`. -/
def jsRound (x : ℚ) : ℤ := ⌊x + 1/2⌋

/-- Milliseconds in a minute, the divisor used throughout the source when
converting timestamp differences to minutes. -/
def msPerMinute : ℚ := 60000

/-- Milliseconds in the 90-day look-back window of the first-variant
estimator (`startDate.setDate(startDate.getDate() - 90)`). -/
def ninetyDaysMs : ℤ := 90 * 24 * 60 * 60 * 1000

/-- Status of a first-variant `Queue` document (`QueueStatus` in `types`). -/
inductive QStatus
  | waiting
  | in_progress
  | completed
  | cancelled
  | no_show
deriving DecidableEq, Repr

/-- A `Service` document: the fields consumed by the estimator
(`_id`, `duration` in minutes). -/
structure ServiceDoc where
  id : Nat
  duration : ℤ
deriving DecidableEq, Repr

/-- A first-variant `Queue` document, restricted to the fields the estimator
reads (`service`, `status`, `actualStartTime`, `actualEndTime`, `createdAt`;
timestamps in epoch milliseconds). -/
structure QueueRec where
  service : Nat
  status : QStatus
  actualStartTime : Option ℤ
  actualEndTime : Option ℤ
  createdAt : ℤ
deriving DecidableEq, Repr

/-- The value object returned by `aiService.estimateWaitTime`
(`IWaitTimeEstimate`). -/
structure WaitTimeEstimate where
  estimatedWaitMinutes : ℤ
  queuePosition : Nat
  totalAhead : Nat
  averageServiceTime : ℤ
  confidence : ℚ
deriving DecidableEq, Repr

namespace AiService

/-- The store as the first-variant estimator sees it: the `Service` and
`Queue` collections, plus an availability flag — `avail = false` models the
underlying store throwing on access (caught by the estimator's `catch`). -/
structure EstDB where
  avail : Bool
  services : List ServiceDoc
  queues : List QueueRec
deriving Repr

/-- `Service.findById`. -/
def findService (db : EstDB) (serviceId : Nat) : Option ServiceDoc :=
  db.services.find? (fun s => s.id == serviceId)

/-- The `Queue.find` query of `estimateWaitTime`: completed participations of
the service with both `actualStartTime` and `actualEndTime` present, created
in the last 90 days.  No sort and no limit appear in the source; the result
keeps store order. -/
def completedSamples (queues : List QueueRec) (serviceId : Nat) (now : ℤ) :
    List QueueRec :=
  queues.filter (fun q =>
    q.service == serviceId && q.status == QStatus.completed &&
    q.actualStartTime.isSome && q.actualEndTime.isSome &&
    decide (now - ninetyDaysMs ≤ q.createdAt))

/-- The `actualDurations` loop: each sample's `(end − start)` converted to
minutes with `Math.round`. -/
def sampleDurations (qs : List QueueRec) : List ℤ :=
  qs.filterMap (fun q =>
    match q.actualStartTime, q.actualEndTime with
    | some s, some e => some (jsRound ((e - s : ℚ) / msPerMinute))
    | _, _ => none)

/-- The number of completed samples the estimator bases itself on. -/
def sampleCount (db : EstDB) (serviceId : Nat) (now : ℤ) : Nat :=
  (sampleDurations (completedSamples db.queues serviceId now)).length

/-- The `catch` branch of `estimateWaitTime`: the fixed fallback estimate
(15 minutes per person, confidence 0.3). -/
def fallbackEstimate (currentQueueSize : Nat) : WaitTimeEstimate :=
  { estimatedWaitMinutes := (currentQueueSize : ℤ) * 15
    queuePosition := currentQueueSize + 1
    totalAhead := currentQueueSize
    averageServiceTime := 15
    confidence := 3/10 }

/-- The `try` block of `aiService.estimateWaitTime`; `none` models a thrown
error (store unavailable, or the explicit `throw new Error('Service not
found')`). -/
def estimateCore (db : EstDB) (serviceId : Nat) (currentQueueSize : Nat)
    (now : ℤ) : Option WaitTimeEstimate :=
  if db.avail = false then none
  else
    match findService db serviceId with
    | none => none
    | some service =>
      let actualDurations := sampleDurations (completedSamples db.queues serviceId now)
      let n := actualDurations.length
      let averageServiceTime : ℤ :=
        if 0 < n then jsRound ((actualDurations.sum : ℚ) / (n : ℚ)) else service.duration
      let confidence : ℚ :=
        if 0 < n then min (1/2 + (n : ℚ) / 100) (19/20) else 1/2
      let adjustedServiceTime : ℤ := jsRound ((averageServiceTime : ℚ) * (115/100))
      some
        { estimatedWaitMinutes := adjustedServiceTime * (currentQueueSize : ℤ)
          queuePosition := currentQueueSize + 1
          totalAhead := currentQueueSize
          averageServiceTime := adjustedServiceTime
          confidence := ((jsRound (confidence * 100) : ℚ)) / 100 }

/-- `aiService.estimateWaitTime`: the `try` block with the `catch`-all
fallback.  Total — the estimator never raises. -/
def estimateWaitTime (db : EstDB) (serviceId : Nat) (currentQueueSize : Nat)
    (now : ℤ) : WaitTimeEstimate :=
  (estimateCore db serviceId currentQueueSize now).getD
    (fallbackEstimate currentQueueSize)

end AiService

/-- Status of a second-variant `QueueEntry` document. -/
inductive EStatus
  | waiting
  | called
  | in_service
  | completed
  | cancelled
  | no_show
deriving DecidableEq, Repr

/-- The terminal entry statuses. -/
def isTerminal : EStatus → Bool
  | EStatus.completed => true
  | EStatus.cancelled => true
  | EStatus.no_show => true
  | _ => false

/-- The statuses the controllers treat as active occupancy
(`['waiting', 'called', 'in_service']`). -/
def isActiveStatus : EStatus → Bool
  | EStatus.waiting => true
  | EStatus.called => true
  | EStatus.in_service => true
  | _ => false

/-- Status of a second-variant `Counter` document
(`enum: ['active', 'inactive', 'break']`). -/
inductive CStatus
  | active
  | inactive
  | onBreak
deriving DecidableEq, Repr

/-- Status of a second-variant `Queue` container document; the controller only
ever compares it with `'active'`, so the non-active values are collapsed. -/
inductive QMStatus
  | active
  | notActive
deriving DecidableEq, Repr

/-- A second-variant `QueueEntry` document (timestamps in epoch ms). -/
structure EntryDoc where
  id : Nat
  queue : Nat
  customer : Nat
  service : Nat
  counter : Option Nat
  status : EStatus
  priority : Nat
  estimatedWaitTime : ℤ
  actualWaitTime : Option ℤ
  joinedAt : Option ℤ
  calledAt : Option ℤ
  startedAt : Option ℤ
  completedAt : Option ℤ
  entryNumber : Nat
deriving DecidableEq, Repr

/-- A second-variant `Counter` document (fields read by the AI service and the
lifecycle controller). -/
structure CounterDoc where
  id : Nat
  services : List Nat
  status : CStatus
  averageServiceTime : ℚ
  currentQueue : Option Nat
deriving DecidableEq, Repr

/-- A second-variant `Queue` container document. -/
structure QueueModelDoc where
  id : Nat
  service : Nat
  status : QMStatus
  maxCapacity : Nat
  currentCount : ℤ
deriving DecidableEq, Repr

/-- The second-variant store: the `Queue`, `QueueEntry` and `Counter`
collections. -/
structure SysDB where
  queues : List QueueModelDoc
  entries : List EntryDoc
  counters : List CounterDoc
deriving DecidableEq, Repr

/-- `QueueEntry.findById`. -/
def findEntry (db : SysDB) (entryId : Nat) : Option EntryDoc :=
  db.entries.find? (fun e => e.id == entryId)

/-- `Queue.findById` (second variant). -/
def findQueueDoc (db : SysDB) (queueId : Nat) : Option QueueModelDoc :=
  db.queues.find? (fun q => q.id == queueId)

/-- `Counter.findById`. -/
def findCounter (db : SysDB) (counterId : Nat) : Option CounterDoc :=
  db.counters.find? (fun c => c.id == counterId)

namespace AiService2

/-- Sort key of the `.sort({ completedAt: -1 })` fetch. -/
def completedKey (e : EntryDoc) : ℤ := e.completedAt.getD 0

/-- Stable insertion into a list sorted by `completedKey` in descending
order: the inserted element goes before the first strictly older element,
hence before any element with an equal key. -/
def insertByCompletedDesc (x : EntryDoc) : List EntryDoc → List EntryDoc
  | [] => [x]
  | y :: ys =>
    if completedKey y ≤ completedKey x then x :: y :: ys
    else y :: insertByCompletedDesc x ys

/-- Stable descending sort by `completedAt`, embedding `.sort({ completedAt:
-1 })`. -/
def sortByCompletedDesc : List EntryDoc → List EntryDoc
  | [] => []
  | x :: xs => insertByCompletedDesc x (sortByCompletedDesc xs)

/-- The `QueueEntry.find(...).sort({ completedAt: -1 }).limit(50)` fetch of
`ai.service.estimateWaitTime`: completed entries of the service with both
`startedAt` and `completedAt` present, most recent first, at most 50. -/
def mostRecentCompleted (entries : List EntryDoc) (serviceId : Nat) :
    List EntryDoc :=
  (sortByCompletedDesc (entries.filter (fun e =>
    e.service == serviceId && e.status == EStatus.completed &&
    e.startedAt.isSome && e.completedAt.isSome))).take 50

/-- `QueueEntry.countDocuments({ queue, status: 'waiting' })`. -/
def waitingCount (db : SysDB) (queueId : Nat) : Nat :=
  (db.entries.filter (fun e =>
    e.queue == queueId && e.status == EStatus.waiting)).length

/-- `QueueEntry.countDocuments({ queue, status: 'in_service' })`. -/
def inServiceAtQueue (db : SysDB) (queueId : Nat) : Nat :=
  (db.entries.filter (fun e =>
    e.queue == queueId && e.status == EStatus.in_service)).length

/-- `Counter.countDocuments({ services: serviceId, status: 'active' })`. -/
def availableCountersCount (db : SysDB) (serviceId : Nat) : Nat :=
  (db.counters.filter (fun c =>
    c.services.contains serviceId && c.status == CStatus.active)).length

/-- The exact per-entry service time of a completed sample, in minutes
(`(completedAt - startedAt) / (1000 * 60)`, no rounding). -/
def entryServiceMinutes (e : EntryDoc) : ℚ :=
  ((e.completedAt.getD 0 - e.startedAt.getD 0 : ℤ) : ℚ) / msPerMinute

/-- The result record of `ai.service.estimateWaitTime`
(`WaitTimeEstimation`, with `basedOn` flattened). -/
structure WaitTimeEstimation where
  estimatedMinutes : ℤ
  confidence : ℤ
  queueLength : Nat
  averageServiceTime : ℚ
  counterAvailability : Nat
deriving DecidableEq, Repr

/-- `ai.service.estimateWaitTime`: the queue-depth estimator used on the
admission path.  Pure embedding of the `try` block (the `catch` fallback is
`{15, 30, 0, 10, 1}` and is only reachable on store failure). -/
def estimateWaitTime (db : SysDB) (queueId : Nat) (serviceId : Nat) :
    WaitTimeEstimation :=
  let waitingEntries := waitingCount db queueId
  let inServiceEntries := inServiceAtQueue db queueId
  let availableCounters := availableCountersCount db serviceId
  let completedEntries := mostRecentCompleted db.entries serviceId
  let avgServiceTime : ℚ :=
    if 0 < completedEntries.length then
      (completedEntries.map entryServiceMinutes).sum / (completedEntries.length : ℚ)
    else 10
  let countersInUse := max inServiceEntries availableCounters
  let effectiveCounters := max countersInUse 1
  let estimatedMinutes : ℚ :=
    if availableCounters = 0 then (waitingEntries : ℚ) * avgServiceTime
    else ((⌈(waitingEntries : ℚ) / (effectiveCounters : ℚ)⌉ : ℤ) : ℚ) * avgServiceTime
  let dataPoints := completedEntries.length
  let baseConfidence : ℚ := min (((dataPoints : ℚ) / 50) * 70) 70
  let counterConfidence : ℚ := if 0 < availableCounters then 20 else 5
  let recentDataConfidence : ℚ := if 0 < waitingEntries then 10 else 5
  let confidence : ℤ := jsRound (baseConfidence + counterConfidence + recentDataConfidence)
  { estimatedMinutes := jsRound estimatedMinutes
    confidence := min confidence 95
    queueLength := waitingEntries
    averageServiceTime := ((jsRound (avgServiceTime * 10) : ℤ) : ℚ) / 10
    counterAvailability := availableCounters }

/-- A scored candidate counter, as built inside `getOptimalCounter`. -/
structure ScoredCounter where
  counterId : Nat
  score : ℚ
deriving DecidableEq, Repr

/-- `QueueEntry.countDocuments({ counter, status: { $in: ['waiting',
'called', 'in_service'] } })`. -/
def entriesAtCounter (db : SysDB) (counterId : Nat) : Nat :=
  (db.entries.filter (fun e =>
    e.counter == some counterId && isActiveStatus e.status)).length

/-- `QueueEntry.countDocuments({ counter, status: 'in_service' })`. -/
def inServiceAtCounter (db : SysDB) (counterId : Nat) : Nat :=
  (db.entries.filter (fun e =>
    e.counter == some counterId && e.status == EStatus.in_service)).length

/-- The score `getOptimalCounter` computes for one candidate counter:
start at 100, subtract 10 per active entry at the counter, subtract half the
counter's average service time when positive, add 30 when it has no
in-service entry, clamp at 0. -/
def counterScore (db : SysDB) (c : CounterDoc) : ℚ :=
  let queueLength := entriesAtCounter db c.id
  let afterLoad : ℚ := 100 - (queueLength : ℚ) * 10
  let afterAvg : ℚ :=
    if 0 < c.averageServiceTime then afterLoad - c.averageServiceTime * (1/2)
    else afterLoad
  let currentlyServing := inServiceAtCounter db c.id
  let withBonus : ℚ := if currentlyServing = 0 then afterAvg + 30 else afterAvg
  max withBonus 0

/-- The `Counter.find({ services: serviceId, status: 'active' })` candidate
fetch, in store order. -/
def activeCountersSupporting (db : SysDB) (serviceId : Nat) : List CounterDoc :=
  db.counters.filter (fun c =>
    c.services.contains serviceId && c.status == CStatus.active)

/-- Stable insertion for the score-descending sort: `x`, which originally
precedes every element of the list being inserted into, goes before the first
element whose score is not strictly greater than `x`'s — exactly where
JavaScript's stable `Array.prototype.sort` with comparator
`(a, b) => b.score - a.score` leaves it. -/
def insertByScoreDesc (x : ScoredCounter) : List ScoredCounter → List ScoredCounter
  | [] => [x]
  | y :: ys =>
    if x.score < y.score then y :: insertByScoreDesc x ys
    else x :: y :: ys

/-- Stable descending sort by score, embedding
`scoredCounters.sort((a, b) => b.score - a.score)`. -/
def sortByScoreDesc : List ScoredCounter → List ScoredCounter
  | [] => []
  | x :: xs => insertByScoreDesc x (sortByScoreDesc xs)

/-- `ai.service.getOptimalCounter`: score the active counters supporting the
service, sort by score (stable, descending) and return the head's id; `none`
when no candidate exists.  The `avail` flag models the `catch` branch: on any
data-access error the function returns `null` rather than throwing. -/
def getOptimalCounter (avail : Bool) (db : SysDB) (serviceId : Nat) :
    Option Nat :=
  if avail = false then none
  else
    let counters := activeCountersSupporting db serviceId
    if counters.length = 0 then none
    else
      let scoredCounters := counters.map (fun c =>
        ScoredCounter.mk c.id (counterScore db c))
      match sortByScoreDesc scoredCounters with
      | [] => none
      | best :: _ => some best.counterId

/-- `m` is the first-encountered maximum of `l`: it occurs in `l`, every
element before its occurrence scores strictly less, and nothing in `l`
scores more. -/
def IsFirstMax (l : List ScoredCounter) (m : ScoredCounter) : Prop :=
  ∃ l₁ l₂, l = l₁ ++ m :: l₂ ∧ (∀ x ∈ l₁, x.score < m.score)
    ∧ ∀ x ∈ l, x.score ≤ m.score


end AiService2

namespace QueueEntryController

/-- Outcome of `joinQueue` (HTTP codes flattened to a tagged result:
404 queue missing, 400 `'Queue is not active'`, 400 `'You are already in this
queue'`, 400 `'Queue is at full capacity'`, 201 success carrying the created
entry's id). -/
inductive JoinResult
  | notFound
  | notActive
  | conflict
  | capacityExceeded
  | joined (entryId : Nat)
deriving DecidableEq, Repr

/-- Outcome of `updateQueueEntryStatus` / `cancelQueueEntry`. -/
inductive UpdateResult
  | notFound
  | notAuthorized
  | cannotCancel
  | updated
deriving DecidableEq, Repr

/-- A fresh `_id` for a created entry: one more than the largest id in the
store (the embedding of MongoDB's fresh ObjectId). -/
def freshId (db : SysDB) : Nat :=
  (db.entries.map (fun e => e.id)).foldr max 0 + 1

/-- The pre-save hook of `QueueEntry.model`: the next `entryNumber` is one
more than the largest existing entry number in the same queue, or 1. -/
def nextEntryNumber (db : SysDB) (queueId : Nat) : Nat :=
  ((db.entries.filter (fun e => e.queue == queueId)).map
    (fun e => e.entryNumber)).foldr max 0 + 1

/-- The duplicate-membership probe of `joinQueue`:
`QueueEntry.findOne({ customer, queue, status: { $in: ['waiting', 'called',
'in_service'] } })` — keyed on the (customer, queue) pair. -/
def hasActiveEntry (db : SysDB) (userId : Nat) (queueId : Nat) : Bool :=
  db.entries.any (fun e =>
    e.customer == userId && e.queue == queueId && isActiveStatus e.status)

/-- Add one to `currentCount` of every queue document with the given id
(`queueDoc.currentCount += 1; await queueDoc.save()`). -/
def bumpQueueCount (queues : List QueueModelDoc) (queueId : Nat) (delta : ℤ) :
    List QueueModelDoc :=
  queues.map (fun q =>
    if q.id == queueId then { q with currentCount := q.currentCount + delta }
    else q)

/-- `queueEntry.controller.joinQueue`: the admission operation.  Checks, in
source order: queue exists (else 404), queue active (else 400), no active
entry for (customer, queue) (else 400 conflict), `currentCount <
maxCapacity` (else 400 capacity).  On success it consults the estimator and
the counter scorer, creates the waiting entry and increments the queue's
`currentCount`. -/
def joinQueue (db : SysDB) (userId : Nat) (queueId : Nat) (serviceId : Nat)
    (priorityArg : Nat) (now : ℤ) : JoinResult × SysDB :=
  match findQueueDoc db queueId with
  | none => (JoinResult.notFound, db)
  | some queueDoc =>
    if queueDoc.status ≠ QMStatus.active then (JoinResult.notActive, db)
    else if hasActiveEntry db userId queueId then (JoinResult.conflict, db)
    else if (queueDoc.maxCapacity : ℤ) ≤ queueDoc.currentCount then
      (JoinResult.capacityExceeded, db)
    else
      let waitTimeEstimation := AiService2.estimateWaitTime db queueId serviceId
      let optimalCounter := AiService2.getOptimalCounter true db serviceId
      let entry : EntryDoc :=
        { id := freshId db
          queue := queueId
          customer := userId
          service := serviceId
          counter := optimalCounter
          status := EStatus.waiting
          priority := priorityArg
          estimatedWaitTime := waitTimeEstimation.estimatedMinutes
          actualWaitTime := none
          joinedAt := some now
          calledAt := none
          startedAt := none
          completedAt := none
          entryNumber := nextEntryNumber db queueId }
      (JoinResult.joined entry.id,
        { db with
            entries := db.entries ++ [entry]
            queues := bumpQueueCount db.queues queueId 1 })

/-- The per-branch field updates of `updateQueueEntryStatus`, applied to the
entry found by id (the embedding of `findByIdAndUpdate(id, updates)`):
`called` stamps `calledAt` and optionally the counter; `in_service` stamps
`startedAt` and optionally the counter; `completed` stamps `completedAt` and,
when both `joinedAt` and `startedAt` exist, the actual wait in minutes;
`status` is always set to the target.  No branch inspects the entry's
previous status. -/
def applyStatusUpdates (e : EntryDoc) (status : EStatus)
    (counterParam : Option Nat) (now : ℤ) : EntryDoc :=
  match status with
  | EStatus.called =>
    { e with status, calledAt := some now,
             counter := counterParam.or e.counter }
  | EStatus.in_service =>
    { e with status, startedAt := some now,
             counter := counterParam.or e.counter }
  | EStatus.completed =>
    { e with status, completedAt := some now,
             actualWaitTime :=
               match e.joinedAt, e.startedAt with
               | some j, some s => some (jsRound ((s - j : ℤ) / msPerMinute))
               | _, _ => e.actualWaitTime }
  | _ => { e with status }

/-- The counter-side effect of the `completed` branch: when the entry has a
counter and a `startedAt`, the measured service time is `now − startedAt`
rounded to minutes and the counter's rolling average is updated by
`currentAvg == 0 ? serviceTime : currentAvg * 0.8 + serviceTime * 0.2`. -/
def updateCounterAverage (counters : List CounterDoc) (e : EntryDoc)
    (now : ℤ) : List CounterDoc :=
  match e.counter, e.startedAt with
  | some counterId, some st =>
    let serviceTime : ℤ := jsRound ((now - st : ℤ) / msPerMinute)
    counters.map (fun c =>
      if c.id == counterId then
        { c with averageServiceTime :=
            if c.averageServiceTime = 0 then (serviceTime : ℚ)
            else c.averageServiceTime * (8/10) + (serviceTime : ℚ) * (2/10) }
      else c)
  | _, _ => counters

/-- `queueEntry.controller.updateQueueEntryStatus`: the transition operation.
Looks the entry up (404 when absent), computes the per-branch updates, runs
the `completed` / `cancelled` / `no_show` side effects (counter rolling
average; `$inc: { currentCount: -1 }` on the owning queue) and writes the
updated entry back.  The source performs no state-machine validation: the
requested status is always written. -/
def updateQueueEntryStatus (db : SysDB) (entryId : Nat) (status : EStatus)
    (counterParam : Option Nat) (now : ℤ) : UpdateResult × SysDB :=
  match findEntry db entryId with
  | none => (UpdateResult.notFound, db)
  | some entry =>
    let counters :=
      if status = EStatus.completed then updateCounterAverage db.counters entry now
      else db.counters
    let queues :=
      if status = EStatus.completed ∨ status = EStatus.cancelled ∨
          status = EStatus.no_show then
        bumpQueueCount db.queues entry.queue (-1)
      else db.queues
    let entries := db.entries.map (fun e =>
      if e.id == entryId then applyStatusUpdates e status counterParam now
      else e)
    (UpdateResult.updated, { queues, entries, counters })

/-- `queueEntry.controller.cancelQueueEntry`: customers may cancel their own
entries, staff any; only `waiting` or `called` entries can be cancelled; a
successful cancel sets the status and decrements the owning queue's
`currentCount`. -/
def cancelQueueEntry (db : SysDB) (userId : Nat) (isCustomer : Bool)
    (entryId : Nat) : UpdateResult × SysDB :=
  match findEntry db entryId with
  | none => (UpdateResult.notFound, db)
  | some entry =>
    if isCustomer && entry.customer ≠ userId then
      (UpdateResult.notAuthorized, db)
    else if ¬(entry.status = EStatus.waiting ∨ entry.status = EStatus.called) then
      (UpdateResult.cannotCancel, db)
    else
      (UpdateResult.updated,
        { db with
            entries := db.entries.map (fun e =>
              if e.id == entryId then { e with status := EStatus.cancelled }
              else e)
            queues := bumpQueueCount db.queues entry.queue (-1) })

/-! ## C3 — occupancy conservation: definitions -/

/-- Number of entries of a queue whose status is non-terminal. -/
def countNonTerminal (entries : List EntryDoc) (queueId : Nat) : Nat :=
  (entries.filter (fun e => e.queue == queueId && !isTerminal e.status)).length

/-- The contribution of one entry to a queue's non-terminal count. -/
def entryWeight (queueId : Nat) (e : EntryDoc) : ℤ :=
  if e.queue == queueId && !isTerminal e.status then 1 else 0

/-- One inbound request touching the queue subsystem. -/
inductive Op
  | join (userId queueId serviceId priorityArg : Nat) (now : ℤ)
  | transition (entryId : Nat) (target : EStatus) (counterParam : Option Nat)
      (now : ℤ)
  | cancel (userId : Nat) (isCustomer : Bool) (entryId : Nat)
deriving DecidableEq, Repr

/-- The store after one request. -/
def applyOp (db : SysDB) : Op → SysDB
  | Op.join u q s p now => (joinQueue db u q s p now).2
  | Op.transition eid target cp now =>
      (updateQueueEntryStatus db eid target cp now).2
  | Op.cancel u b eid => (cancelQueueEntry db u b eid).2

/-- A transition request is well-aimed when its entry, if it exists, is not
already terminal — the workflow staff actually drive.  Join and cancel
requests are always well-aimed (cancel refuses terminal entries itself). -/
def goodOp (db : SysDB) : Op → Bool
  | Op.transition eid _ _ _ =>
    match findEntry db eid with
    | some e => !isTerminal e.status
    | none => true
  | _ => true

/-- A well-aimed request sequence: each request is well-aimed in the store
produced by its predecessors. -/
def goodSeq (db : SysDB) : List Op → Bool
  | [] => true
  | op :: ops => goodOp db op && goodSeq (applyOp db op) ops

/-- The store after a request sequence. -/
def runOps (db : SysDB) : List Op → SysDB
  | [] => db
  | op :: ops => runOps (applyOp db op) ops

/-- Entry ids are pairwise distinct (MongoDB's `_id` uniqueness). -/
def EntryIdsNodup (db : SysDB) : Prop :=
  (db.entries.map (fun e => e.id)).Nodup

/-- Every queue's occupancy counter equals its non-terminal entry count. -/
def OccupancyInv (db : SysDB) : Prop :=
  ∀ q ∈ db.queues, q.currentCount = (countNonTerminal db.entries q.id : ℤ)

/-- The store invariant for occupancy conservation. -/
def Inv (db : SysDB) : Prop := EntryIdsNodup db ∧ OccupancyInv db


/-- A full queue (capacity 1, occupancy 1) for service 2, with no entries. -/
def exQFull : QueueModelDoc :=
  { id := 1, service := 2, status := QMStatus.active, maxCapacity := 1,
    currentCount := 1 }

/-- Store for the capacity-failure witness. -/
def exDbFull : SysDB := { queues := [exQFull], entries := [], counters := [] }


/-- An inactive queue for service 2. -/
def exDbInactive : SysDB :=
  { queues := [{ id := 1, service := 2, status := QMStatus.notActive,
                 maxCapacity := 10, currentCount := 0 }]
    entries := [], counters := [] }

/-- Two active queues for the same service 2; customer 1 is already waiting
in queue 1. -/
def exDbTwoQueues : SysDB :=
  { queues := [{ id := 1, service := 2, status := QMStatus.active,
                 maxCapacity := 10, currentCount := 1 },
               { id := 2, service := 2, status := QMStatus.active,
                 maxCapacity := 10, currentCount := 0 }]
    entries := [{ id := 1, queue := 1, customer := 1, service := 2,
                  counter := none, status := EStatus.waiting, priority := 0,
                  estimatedWaitTime := 0, actualWaitTime := none,
                  joinedAt := some 0, calledAt := none, startedAt := none,
                  completedAt := none, entryNumber := 1 }]
    counters := [] }


/-- A store whose single entry is already completed. -/
def exDbTerm : SysDB :=
  { queues := []
    entries := [{ id := 1, queue := 1, customer := 1, service := 2,
                  counter := none, status := EStatus.completed, priority := 0,
                  estimatedWaitTime := 0, actualWaitTime := none,
                  joinedAt := some 0, calledAt := none, startedAt := some 0,
                  completedAt := some 60000, entryNumber := 1 }]
    counters := [] }


/-- A counter with rolling average 10 and an in-service entry started at
time 0. -/
def exCounter9 : CounterDoc :=
  { id := 1, services := [2], status := CStatus.active,
    averageServiceTime := 10, currentQueue := none }

/-- The in-service entry assigned to `exCounter9`. -/
def exEntry9 : EntryDoc :=
  { id := 1, queue := 1, customer := 1, service := 2,
    counter := some 1, status := EStatus.in_service, priority := 0,
    estimatedWaitTime := 0, actualWaitTime := none,
    joinedAt := some 0, calledAt := none, startedAt := some 0,
    completedAt := none, entryNumber := 1 }

/-- Store for the rolling-average witness. -/
def exDb9 : SysDB :=
  { queues := [], entries := [exEntry9], counters := [exCounter9] }


/-- An empty store with one active queue of capacity 10. -/
def exDb3 : SysDB :=
  { queues := [{ id := 1, service := 2, status := QMStatus.active,
                 maxCapacity := 10, currentCount := 0 }]
    entries := [], counters := [] }

/-- One admission followed by a normal start-service / complete workflow. -/
def exOps3 : List Op :=
  [Op.join 1 1 2 0 0,
   Op.transition 1 EStatus.in_service none 5,
   Op.transition 1 EStatus.completed none 10]


/-- A store with one in-service entry and its queue's occupancy 1. -/
def exDbC3 : SysDB :=
  { queues := [{ id := 1, service := 2, status := QMStatus.active,
                 maxCapacity := 10, currentCount := 1 }]
    entries := [{ id := 1, queue := 1, customer := 1, service := 2,
                  counter := none, status := EStatus.in_service, priority := 0,
                  estimatedWaitTime := 0, actualWaitTime := none,
                  joinedAt := some 0, calledAt := none, startedAt := some 0,
                  completedAt := none, entryNumber := 1 }]
    counters := [] }


end QueueEntryController

/-! ## Example stores for witnesses and counterexamples -/

/-- The service of the spec's Scenario A: nominal duration 30 minutes. -/
def consultation : ServiceDoc := { id := 1, duration := 30 }

/-- A store holding `consultation` and no history at all. -/
def exDbNoHistory : AiService.EstDB :=
  { avail := true, services := [consultation], queues := [] }

/-- An unavailable store: every access throws. -/
def exDbDown : AiService.EstDB :=
  { avail := false, services := [consultation], queues := [] }

/-- A store with exactly one completed 20-minute sample for `consultation`. -/
def exDbOneSample : AiService.EstDB :=
  { avail := true
    services := [consultation]
    queues := [{ service := 1, status := QStatus.completed,
                 actualStartTime := some 0, actualEndTime := some 1200000,
                 createdAt := 500 }] }


/-! ## Spec-side formulas (named after the specification's wording, for
comparison against the embedded code) -/

namespace Spec

/-- Specification §4.1 step 3: average duration = the arithmetic mean of the
fetched samples' minute durations rounded to the nearest integer, or the
nominal baseline when no samples exist. -/
def averageDuration (durs : List ℤ) (nominal : ℤ) : ℤ :=
  if durs.length = 0 then nominal
  else jsRound ((durs.sum : ℚ) / (durs.length : ℚ))

/-- Specification §4.1 step 4: `adjusted = round(average × 1.15)`. -/
def adjustedDuration (durs : List ℤ) (nominal : ℤ) : ℤ :=
  jsRound ((averageDuration durs nominal : ℚ) * (115/100))

end Spec


namespace Spec

/-- Stable insertion for a `createdAt`-descending sort of first-variant
records. -/
def insertByCreatedDesc (x : QueueRec) : List QueueRec → List QueueRec
  | [] => [x]
  | y :: ys =>
    if x.createdAt < y.createdAt then y :: insertByCreatedDesc x ys
    else x :: y :: ys

/-- Stable descending sort of first-variant records by `createdAt`. -/
def sortByCreatedDesc : List QueueRec → List QueueRec
  | [] => []
  | x :: xs => insertByCreatedDesc x (sortByCreatedDesc xs)

/-- The fetch as claim C7 describes it, for the first-variant estimator: the
50 most recent completed samples of the service with both timestamps,
most-recent-first.  Named after the spec's wording, to compare with the
code's `completedSamples`, which has neither the sort nor the limit. -/
def recentCompletedSamples (queues : List QueueRec) (serviceId : Nat) :
    List QueueRec :=
  (sortByCreatedDesc (queues.filter (fun q =>
    q.service == serviceId && q.status == QStatus.completed &&
    q.actualStartTime.isSome && q.actualEndTime.isSome))).take 50

end Spec

/-- A completed 10-minute sample for service 7 (recent). -/
def sample10 : QueueRec :=
  { service := 7, status := QStatus.completed, actualStartTime := some 0,
    actualEndTime := some 600000, createdAt := 999 }

/-- A completed 1010-minute sample for service 7, older than the others but
inside the 90-day window. -/
def sampleOld : QueueRec :=
  { service := 7, status := QStatus.completed, actualStartTime := some 0,
    actualEndTime := some 60600000, createdAt := 0 }

/-- A store holding 51 qualifying samples for service 7: fifty recent
10-minute ones and one old 1010-minute outlier. -/
def exDb51 : AiService.EstDB :=
  { avail := true
    services := [{ id := 7, duration := 30 }]
    queues := List.replicate 50 sample10 ++ [sampleOld] }


/-- A second-variant store with one completed 10-minute entry for service 3. -/
def exV2Db : SysDB :=
  { queues := []
    counters := []
    entries := [{ id := 1, queue := 1, customer := 1, service := 3,
                  counter := none, status := EStatus.completed, priority := 0,
                  estimatedWaitTime := 0, actualWaitTime := none,
                  joinedAt := some 0, calledAt := none, startedAt := some 0,
                  completedAt := some 600000, entryNumber := 1 }] }


/-- The counter of the spec's Scenario C: supports service 5, average
service time 10 minutes. -/
def exCounter1 : CounterDoc :=
  { id := 1, services := [5], status := CStatus.active,
    averageServiceTime := 10, currentQueue := none }

/-- A store where counter 1 has two waiting entries and none in service. -/
def exDb8 : SysDB :=
  { queues := []
    counters := [exCounter1]
    entries := [{ id := 1, queue := 1, customer := 1, service := 5,
                  counter := some 1, status := EStatus.waiting, priority := 0,
                  estimatedWaitTime := 0, actualWaitTime := none,
                  joinedAt := some 0, calledAt := none, startedAt := none,
                  completedAt := none, entryNumber := 1 },
                { id := 2, queue := 1, customer := 2, service := 5,
                  counter := some 1, status := EStatus.waiting, priority := 0,
                  estimatedWaitTime := 0, actualWaitTime := none,
                  joinedAt := some 0, calledAt := none, startedAt := none,
                  completedAt := none, entryNumber := 2 }] }


/-! ## Helper lemmas -/

theorem jsRound_intCast (k : ℤ) : jsRound (k : ℚ) = k := by
  unfold jsRound
  rw [Int.floor_int_add]
  norm_num

namespace AiService

/-- Unfolding of the estimator on an unavailable store or a missing service:
the thrown error is caught and the fixed fallback is returned. -/
theorem estimate_err (db : EstDB) (serviceId queueSize : Nat) (now : ℤ)
    (h : db.avail = false ∨ findService db serviceId = none) :
    estimateWaitTime db serviceId queueSize now = fallbackEstimate queueSize := by
  rcases h with h | h
  · simp [estimateWaitTime, estimateCore, h]
  · cases havail : db.avail <;>
      simp [estimateWaitTime, estimateCore, havail, h]

/-- Rounding a confidence of the form `min (1/2 + n/100) (19/20)` to two
decimals is the identity: the value is an integer number of hundredths. -/
theorem conf_round (n : ℕ) :
    ((jsRound ((min (1/2 + (n : ℚ) / 100) (19/20)) * 100) : ℤ) : ℚ) / 100
      = min (1/2 + (n : ℚ) / 100) (19/20) := by
  have key : (min (1/2 + (n : ℚ) / 100) (19/20)) * 100
      = ((min (50 + (n : ℤ)) 95 : ℤ) : ℚ) := by
    rw [min_mul_of_nonneg _ _ (by norm_num : (0:ℚ) ≤ 100)]
    push_cast
    congr 1
    · ring
    · norm_num
  rw [key, jsRound_intCast, ← key, mul_div_assoc]
  norm_num

/-- The confidence returned on the successful path, for any sample count:
with no samples the default `0.5` coincides with `min (1/2 + 0/100) (19/20)`,
so one closed form covers both branches. -/
theorem confidence_ok (db : EstDB) (serviceId queueSize : Nat) (now : ℤ)
    (service : ServiceDoc) (ha : db.avail = true)
    (hs : findService db serviceId = some service) :
    (estimateWaitTime db serviceId queueSize now).confidence
      = min (1/2 + (sampleCount db serviceId now : ℚ) / 100) (19/20) := by
  unfold estimateWaitTime estimateCore sampleCount
  rw [ha, hs]
  simp only [Bool.true_eq_false, if_false, Option.getD_some]
  rcases Nat.eq_zero_or_pos (sampleDurations (completedSamples db.queues serviceId now)).length
    with hn | hn
  · rw [hn]
    norm_num [jsRound]
  · simp only [hn, if_pos]
    exact conf_round _

end AiService

/-! ## Sorting lemmas for the second-variant fetch -/

namespace AiService2

theorem mem_insertByCompletedDesc {x y : EntryDoc} {l : List EntryDoc} :
    y ∈ insertByCompletedDesc x l ↔ y = x ∨ y ∈ l := by
  induction l with
  | nil => simp [insertByCompletedDesc]
  | cons z zs ih =>
    by_cases h : completedKey z ≤ completedKey x
    · simp [insertByCompletedDesc, h]
    · simp only [insertByCompletedDesc, if_neg h, List.mem_cons, ih]
      tauto

theorem pairwise_insertByCompletedDesc {x : EntryDoc} {l : List EntryDoc}
    (h : l.Pairwise (fun a b => completedKey b ≤ completedKey a)) :
    (insertByCompletedDesc x l).Pairwise
      (fun a b => completedKey b ≤ completedKey a) := by
  induction l with
  | nil => simp [insertByCompletedDesc]
  | cons z zs ih =>
    rcases List.pairwise_cons.mp h with ⟨hz, hzs⟩
    by_cases hc : completedKey z ≤ completedKey x
    · rw [insertByCompletedDesc, if_pos hc]
      refine List.pairwise_cons.mpr ⟨?_, h⟩
      intro y hy
      rcases List.mem_cons.mp hy with rfl | hy
      · exact hc
      · exact le_trans (hz y hy) hc
    · rw [insertByCompletedDesc, if_neg hc]
      refine List.pairwise_cons.mpr ⟨?_, ih hzs⟩
      intro y hy
      rcases mem_insertByCompletedDesc.mp hy with rfl | hy
      · exact le_of_not_le hc
      · exact hz y hy

theorem mem_sortByCompletedDesc {y : EntryDoc} {l : List EntryDoc} :
    y ∈ sortByCompletedDesc l ↔ y ∈ l := by
  induction l with
  | nil => simp [sortByCompletedDesc]
  | cons z zs ih =>
    simp only [sortByCompletedDesc, mem_insertByCompletedDesc, List.mem_cons, ih]

theorem pairwise_sortByCompletedDesc (l : List EntryDoc) :
    (sortByCompletedDesc l).Pairwise
      (fun a b => completedKey b ≤ completedKey a) := by
  induction l with
  | nil => simp [sortByCompletedDesc]
  | cons z zs ih => exact pairwise_insertByCompletedDesc ih

end AiService2

/-! ## C4 — estimator arithmetic -/

/-- **C4**: for every found service with nominal duration `d` and every queue
size `n`, the estimator returns `estimatedWaitMinutes = adjusted × n` and
`averageServiceTime = adjusted`, where `adjusted = round(average × 1.15)` and
`average` is the rounded mean of the fetched samples' minute durations (or
`d` when no samples exist), together with `queuePosition = n + 1`. -/
theorem estimateWaitTime_formula (db : AiService.EstDB)
    (serviceId queueSize : Nat) (now : ℤ) (service : ServiceDoc)
    (ha : db.avail = true)
    (hs : AiService.findService db serviceId = some service) :
    (AiService.estimateWaitTime db serviceId queueSize now).estimatedWaitMinutes
        = Spec.adjustedDuration
            (AiService.sampleDurations (AiService.completedSamples db.queues serviceId now))
            service.duration * (queueSize : ℤ)
      ∧ (AiService.estimateWaitTime db serviceId queueSize now).averageServiceTime
        = Spec.adjustedDuration
            (AiService.sampleDurations (AiService.completedSamples db.queues serviceId now))
            service.duration
      ∧ (AiService.estimateWaitTime db serviceId queueSize now).queuePosition
        = queueSize + 1
      ∧ (AiService.estimateWaitTime db serviceId queueSize now).totalAhead
        = queueSize := by
  unfold AiService.estimateWaitTime AiService.estimateCore
  rw [ha, hs]
  simp only [Bool.true_eq_false, if_false, Option.getD_some]
  rcases Nat.eq_zero_or_pos
      (AiService.sampleDurations (AiService.completedSamples db.queues serviceId now)).length
    with hn | hn
  · simp [Spec.adjustedDuration, Spec.averageDuration, hn]
  · simp [Spec.adjustedDuration, Spec.averageDuration, hn, Nat.pos_iff_ne_zero.mp hn]

/-- Witness for C4 at the spec's Scenario A: duration 30, no history, queue
size 3 gives wait 105, confidence 0.5, position 4. -/
theorem estimateWaitTime_formula_witness :
    exDbNoHistory.avail = true
      ∧ AiService.findService exDbNoHistory 1 = some consultation
      ∧ (AiService.estimateWaitTime exDbNoHistory 1 3 0).estimatedWaitMinutes = 105
      ∧ (AiService.estimateWaitTime exDbNoHistory 1 3 0).confidence = 1/2
      ∧ (AiService.estimateWaitTime exDbNoHistory 1 3 0).queuePosition = 4 := by
  have h := estimateWaitTime_formula exDbNoHistory 1 3 0 consultation rfl rfl
  refine ⟨rfl, rfl, ?_, ?_, h.2.2.1⟩
  · rw [h.1]
    norm_num [Spec.adjustedDuration, Spec.averageDuration, AiService.sampleDurations,
      AiService.completedSamples, exDbNoHistory, consultation, jsRound, Int.floor_eq_iff]
  · norm_num [AiService.estimateWaitTime, AiService.estimateCore, AiService.findService,
      AiService.completedSamples, AiService.sampleDurations, exDbNoHistory, consultation,
      jsRound, List.find?, Int.floor_eq_iff]

/-! ## C5 — confidence formula (corrected) -/

/-- Counterexample to C5 as stated: with the service found and zero samples
the estimator returns confidence 0.5 (the default), not the fallback 0.3 the
claim requires "whenever no samples exist". -/
theorem estimator_no_sample_confidence_cex :
    AiService.findService exDbNoHistory 1 = some consultation
      ∧ AiService.sampleCount exDbNoHistory 1 0 = 0
      ∧ (AiService.estimateWaitTime exDbNoHistory 1 3 0).confidence = 1/2
      ∧ (1/2 : ℚ) ≠ 3/10 := by
  refine ⟨rfl, rfl, ?_, by norm_num⟩
  norm_num [AiService.estimateWaitTime, AiService.estimateCore, AiService.findService,
    AiService.completedSamples, AiService.sampleDurations, exDbNoHistory, consultation,
    jsRound, List.find?, Int.floor_eq_iff]

/-- **C5 (amended)**: whenever the service is found the returned confidence
equals `min (0.5 + sampleCount/100) 0.95` — in particular `0.5`, not `0.3`,
when no samples exist — and it equals the fixed fallback `0.3` exactly on
internal failure (service not found or data access throwing); the estimator
is total, hence never raises. -/
theorem estimateWaitTime_confidence (db : AiService.EstDB)
    (serviceId queueSize : Nat) (now : ℤ) :
    (∀ service, db.avail = true →
      AiService.findService db serviceId = some service →
      (AiService.estimateWaitTime db serviceId queueSize now).confidence
        = min (1/2 + (AiService.sampleCount db serviceId now : ℚ) / 100) (19/20))
    ∧ ((db.avail = false ∨ AiService.findService db serviceId = none) →
      (AiService.estimateWaitTime db serviceId queueSize now).confidence = 3/10) := by
  constructor
  · intro service ha hs
    exact AiService.confidence_ok db serviceId queueSize now service ha hs
  · intro h
    rw [AiService.estimate_err db serviceId queueSize now h]
    rfl

/-- Witness for C5 (amended): one 20-minute sample gives confidence 0.51; an
unavailable store gives 0.3. -/
theorem estimateWaitTime_confidence_witness :
    exDbOneSample.avail = true
      ∧ AiService.findService exDbOneSample 1 = some consultation
      ∧ (AiService.estimateWaitTime exDbOneSample 1 0 0).confidence = 51/100
      ∧ (AiService.estimateWaitTime exDbDown 1 0 0).confidence = 3/10 := by
  have h := (estimateWaitTime_confidence exDbOneSample 1 0 0).1 consultation rfl rfl
  have hcnt : AiService.sampleCount exDbOneSample 1 0 = 1 := by
    simp +decide [AiService.sampleCount, AiService.sampleDurations,
      AiService.completedSamples, exDbOneSample, ninetyDaysMs, List.filter]
  have hdown := (estimateWaitTime_confidence exDbDown 1 0 0).2 (Or.inl rfl)
  refine ⟨rfl, rfl, ?_, hdown⟩
  rw [h, hcnt]
  norm_num

/-! ## C6 — fallback estimate and confidence bounds -/

/-- **C6**: when the service is missing or data access fails the estimator
returns — without raising — the fallback estimate `15 × queueSize` minutes,
`averageServiceTime = 15`, `queuePosition = queueSize + 1`, confidence `0.3`;
and in every case the returned confidence lies in `[0, 0.95]`. -/
theorem estimateWaitTime_fallback_bounds (db : AiService.EstDB)
    (serviceId queueSize : Nat) (now : ℤ) :
    ((db.avail = false ∨ AiService.findService db serviceId = none) →
      AiService.estimateWaitTime db serviceId queueSize now =
        { estimatedWaitMinutes := 15 * (queueSize : ℤ)
          queuePosition := queueSize + 1
          totalAhead := queueSize
          averageServiceTime := 15
          confidence := 3/10 })
    ∧ 0 ≤ (AiService.estimateWaitTime db serviceId queueSize now).confidence
    ∧ (AiService.estimateWaitTime db serviceId queueSize now).confidence ≤ 19/20 := by
  refine ⟨?_, ?_⟩
  · intro h
    rw [AiService.estimate_err db serviceId queueSize now h]
    simp [AiService.fallbackEstimate, mul_comm]
  · by_cases ha : db.avail = true
    · cases hs : AiService.findService db serviceId with
      | none =>
        rw [AiService.estimate_err db serviceId queueSize now (Or.inr hs)]
        norm_num [AiService.fallbackEstimate]
      | some service =>
        rw [AiService.confidence_ok db serviceId queueSize now service ha hs]
        refine ⟨le_min (by positivity) (by norm_num), min_le_right _ _⟩
    · rw [AiService.estimate_err db serviceId queueSize now
        (Or.inl (Bool.not_eq_true db.avail ▸ ha))]
      norm_num [AiService.fallbackEstimate]

/-- Witness for C6: the unavailable store at queue size 2. -/
theorem estimateWaitTime_fallback_bounds_witness :
    exDbDown.avail = false
      ∧ AiService.estimateWaitTime exDbDown 1 2 0 =
        { estimatedWaitMinutes := 30, queuePosition := 3, totalAhead := 2
          averageServiceTime := 15, confidence := 3/10 } := by
  have h := (estimateWaitTime_fallback_bounds exDbDown 1 2 0).1 (Or.inl rfl)
  refine ⟨rfl, ?_⟩
  rw [h]
  norm_num

/-! ## C10 — the confidence partition invariant -/

/-- **C10**: every returned confidence is either exactly the fallback `0.3`
or lies in `[0.5, 0.95]`; no estimate carries a confidence below `0.3` or
strictly between `0.3` and `0.5`. -/
theorem estimator_confidence_partition (db : AiService.EstDB)
    (serviceId queueSize : Nat) (now : ℤ) :
    (AiService.estimateWaitTime db serviceId queueSize now).confidence = 3/10
    ∨ (1/2 ≤ (AiService.estimateWaitTime db serviceId queueSize now).confidence
        ∧ (AiService.estimateWaitTime db serviceId queueSize now).confidence ≤ 19/20) := by
  by_cases ha : db.avail = true
  · cases hs : AiService.findService db serviceId with
    | none =>
      left
      rw [AiService.estimate_err db serviceId queueSize now (Or.inr hs)]
      rfl
    | some service =>
      right
      rw [AiService.confidence_ok db serviceId queueSize now service ha hs]
      refine ⟨le_min (le_add_of_nonneg_right (by positivity)) (by norm_num),
        min_le_right _ _⟩
  · left
    rw [AiService.estimate_err db serviceId queueSize now
      (Or.inl (Bool.not_eq_true db.avail ▸ ha))]
    rfl

/-! ## C7 — the sample fetch (corrected) -/

/-- General unfolding of the first-variant estimator on the successful path,
phrased through the spec-side formulas. -/
theorem estimate_ok (db : AiService.EstDB) (serviceId queueSize : Nat)
    (now : ℤ) (service : ServiceDoc) (ha : db.avail = true)
    (hs : AiService.findService db serviceId = some service) :
    AiService.estimateWaitTime db serviceId queueSize now =
      { estimatedWaitMinutes :=
          Spec.adjustedDuration
            (AiService.sampleDurations (AiService.completedSamples db.queues serviceId now))
            service.duration * (queueSize : ℤ)
        queuePosition := queueSize + 1
        totalAhead := queueSize
        averageServiceTime :=
          Spec.adjustedDuration
            (AiService.sampleDurations (AiService.completedSamples db.queues serviceId now))
            service.duration
        confidence :=
          ((jsRound ((if 0 <
                (AiService.sampleDurations (AiService.completedSamples db.queues serviceId now)).length
              then min (1/2 +
                ((AiService.sampleDurations (AiService.completedSamples db.queues serviceId now)).length : ℚ) / 100)
                (19/20)
              else 1/2) * 100) : ℤ) : ℚ) / 100 } := by
  unfold AiService.estimateWaitTime AiService.estimateCore
  rw [ha, hs]
  simp only [Bool.true_eq_false, if_false, Option.getD_some]
  rcases Nat.eq_zero_or_pos
      (AiService.sampleDurations (AiService.completedSamples db.queues serviceId now)).length
    with hn | hn
  · simp [Spec.adjustedDuration, Spec.averageDuration, hn]
  · simp [Spec.adjustedDuration, Spec.averageDuration, hn, Nat.pos_iff_ne_zero.mp hn]


/-- `sampleDurations` over a replicated record with both timestamps. -/
theorem sampleDurations_replicate (n : Nat) (q : QueueRec) (s e : ℤ)
    (hs : q.actualStartTime = some s) (he : q.actualEndTime = some e) :
    AiService.sampleDurations (List.replicate n q)
      = List.replicate n (jsRound ((e - s : ℚ) / msPerMinute)) := by
  induction n with
  | zero => rfl
  | succ m ih =>
    simp only [List.replicate_succ, AiService.sampleDurations, List.filterMap_cons] at ih ⊢
    rw [hs, he]
    simpa using ih

/-- Counterexample to C7 as stated: the first-variant estimator — the one
behind the public wait-time endpoint — fetches 51 qualifying samples (there
is no limit and no sort in its query), and its returned average differs from
the one the claimed 50-most-recent fetch would produce (35 versus 12). -/
theorem estimator_fetch_unbounded_cex :
    (AiService.sampleDurations (AiService.completedSamples exDb51.queues 7 999)).length = 51
      ∧ (Spec.recentCompletedSamples exDb51.queues 7).length = 50
      ∧ (AiService.estimateWaitTime exDb51 7 1 999).averageServiceTime = 35
      ∧ Spec.adjustedDuration
          (AiService.sampleDurations (Spec.recentCompletedSamples exDb51.queues 7)) 30 = 12
      ∧ (35 : ℤ) ≠ 12 := by
  have hall : AiService.completedSamples exDb51.queues 7 999 = exDb51.queues := by decide
  have h10 : jsRound (((600000 : ℤ) - (0 : ℤ) : ℚ) / msPerMinute) = 10 := by
    norm_num [jsRound, msPerMinute, Int.floor_eq_iff]
  have hdur : AiService.sampleDurations exDb51.queues
      = List.replicate 50 (10 : ℤ) ++ [1010] := by
    show AiService.sampleDurations (List.replicate 50 sample10 ++ [sampleOld]) = _
    rw [AiService.sampleDurations, List.filterMap_append]
    rw [show List.filterMap _ (List.replicate 50 sample10)
        = AiService.sampleDurations (List.replicate 50 sample10) from rfl]
    rw [sampleDurations_replicate 50 sample10 0 600000 rfl rfl, h10]
    simp [AiService.sampleDurations, sampleOld]
    norm_num [jsRound, msPerMinute, Int.floor_eq_iff]
  have hspec : Spec.recentCompletedSamples exDb51.queues 7
      = List.replicate 50 sample10 := by decide
  have hsd : AiService.sampleDurations (List.replicate 50 sample10)
      = List.replicate 50 (10 : ℤ) := by
    rw [sampleDurations_replicate 50 sample10 0 600000 rfl rfl, h10]
  have hest := estimate_ok exDb51 7 1 999 { id := 7, duration := 30 } rfl rfl
  refine ⟨?_, ?_, ?_, ?_, by norm_num⟩
  · rw [hall, hdur]
    simp
  · rw [hspec]
    simp
  · rw [hest]
    show Spec.adjustedDuration
      (AiService.sampleDurations (AiService.completedSamples exDb51.queues 7 999)) 30 = 35
    rw [hall, hdur]
    norm_num [Spec.adjustedDuration, Spec.averageDuration, jsRound, Int.floor_eq_iff,
      List.sum_replicate]
  · rw [hspec, hsd]
    norm_num [Spec.adjustedDuration, Spec.averageDuration, jsRound, Int.floor_eq_iff,
      List.sum_replicate]

/-- **C7 (amended)**: the admission-path estimator (`ai.service`) does fetch
at most the 50 most recent completed samples — most-recent-first by
`completedAt`, every one a completed record of the requested service with
both `startedAt` and `completedAt` — and bases its average duration on
exactly those; the standalone estimator (`aiService`), by contrast, bases
its average on all completed samples of the last 90 days with no cap and no
ordering (see the counterexample). -/
theorem admission_fetch_spec (db : SysDB) (queueId serviceId : Nat) :
    (AiService2.mostRecentCompleted db.entries serviceId).length ≤ 50
    ∧ (AiService2.mostRecentCompleted db.entries serviceId).Pairwise
        (fun a b => AiService2.completedKey b ≤ AiService2.completedKey a)
    ∧ (∀ e ∈ AiService2.mostRecentCompleted db.entries serviceId,
        e.service = serviceId ∧ e.status = EStatus.completed
          ∧ e.startedAt.isSome = true ∧ e.completedAt.isSome = true)
    ∧ (0 < (AiService2.mostRecentCompleted db.entries serviceId).length →
        (AiService2.estimateWaitTime db queueId serviceId).averageServiceTime
          = ((jsRound ((((AiService2.mostRecentCompleted db.entries serviceId).map
                AiService2.entryServiceMinutes).sum
              / ((AiService2.mostRecentCompleted db.entries serviceId).length : ℚ)) * 10) : ℤ) : ℚ)
            / 10) := by
  refine ⟨?_, ?_, ?_, ?_⟩
  · rw [AiService2.mostRecentCompleted]
    simp
  · exact (AiService2.pairwise_sortByCompletedDesc _).sublist (List.take_sublist _ _)
  · intro e he
    have hmem : e ∈ AiService2.sortByCompletedDesc _ := List.take_subset _ _ he
    have := AiService2.mem_sortByCompletedDesc.mp hmem
    have hf := List.mem_filter.mp this
    simp only [Bool.and_eq_true, beq_iff_eq] at hf
    exact ⟨hf.2.1.1.1, hf.2.1.1.2, hf.2.1.2, hf.2.2⟩
  · intro hpos
    unfold AiService2.estimateWaitTime
    simp only [hpos, if_pos]

/-- Witness for C7 (amended) on a store with one completed sample: the
admission-path estimator's average service time is based on that fetched
sample (10 minutes). -/
theorem admission_fetch_spec_witness :
    0 < (AiService2.mostRecentCompleted exV2Db.entries 3).length
      ∧ (AiService2.estimateWaitTime exV2Db 1 3).averageServiceTime = 10 := by
  have h := (admission_fetch_spec exV2Db 1 3).2.2.2 (by decide)
  refine ⟨by decide, ?_⟩
  rw [h]
  have hl : AiService2.mostRecentCompleted exV2Db.entries 3
      = exV2Db.entries := by decide
  rw [hl]
  norm_num [exV2Db, AiService2.entryServiceMinutes, msPerMinute, jsRound,
    Int.floor_eq_iff]

/-! ## C8 — the counter assignment scorer -/

namespace AiService2

theorem isFirstMax_singleton {x m : ScoredCounter} (h : IsFirstMax [x] m) :
    m = x := by
  obtain ⟨l₁, l₂, he, -, -⟩ := h
  cases l₁ with
  | nil =>
    rw [List.nil_append] at he
    exact ((List.cons_eq_cons.mp he.symm).1).symm.symm
  | cons a as =>
    rw [List.cons_append] at he
    have hlen := congrArg List.length he
    simp [List.length_append] at hlen

/-- The head of the stable descending sort of a nonempty list is its
first-encountered maximum. -/
theorem head_sortByScoreDesc :
    ∀ l : List ScoredCounter, l ≠ [] →
      ∃ m rest, sortByScoreDesc l = m :: rest ∧ IsFirstMax l m := by
  intro l
  induction l with
  | nil => intro h; exact absurd rfl h
  | cons x xs ih =>
    intro _
    by_cases hxs : xs = []
    · subst hxs
      refine ⟨x, [], rfl, [], [], rfl, by simp, ?_⟩
      intro y hy
      rcases List.mem_singleton.mp hy with rfl
      exact le_refl _
    · obtain ⟨m, rest, hsort, l₁, l₂, hdec, hlt, hle⟩ := ih hxs
      by_cases hc : x.score < m.score
      · refine ⟨m, insertByScoreDesc x rest, ?_, x :: l₁, l₂, by simp [hdec], ?_, ?_⟩
        · simp only [sortByScoreDesc]
          rw [hsort, insertByScoreDesc, if_pos hc]
        · intro y hy
          rcases List.mem_cons.mp hy with rfl | hy
          · exact hc
          · exact hlt y hy
        · intro y hy
          rcases List.mem_cons.mp hy with rfl | hy
          · exact le_of_lt hc
          · exact hle y hy
      · refine ⟨x, m :: rest, ?_, [], xs, rfl, by simp, ?_⟩
        · simp only [sortByScoreDesc]
          rw [hsort, insertByScoreDesc, if_neg hc]
        · intro y hy
          rcases List.mem_cons.mp hy with rfl | hy
          · exact le_refl _
          · exact le_trans (hle y hy) (le_of_not_lt hc)

end AiService2

/-- **C8**: the scorer considers exactly the active counters listing the
service; each candidate's score follows the load / average-time / idle-bonus
formula (`counterScore`) clamped at 0; the returned counter is the
first-encountered highest scorer; no candidate gives `none`; and on any
data-access error the scorer returns `none` rather than throwing. -/
theorem getOptimalCounter_spec (avail : Bool) (db : SysDB) (serviceId : Nat) :
    (avail = false → AiService2.getOptimalCounter avail db serviceId = none)
    ∧ (AiService2.activeCountersSupporting db serviceId = [] →
        AiService2.getOptimalCounter avail db serviceId = none)
    ∧ (avail = true → AiService2.activeCountersSupporting db serviceId ≠ [] →
        ∃ m, AiService2.IsFirstMax
            ((AiService2.activeCountersSupporting db serviceId).map
              (fun c => AiService2.ScoredCounter.mk c.id (AiService2.counterScore db c))) m
          ∧ AiService2.getOptimalCounter avail db serviceId = some m.counterId) := by
  refine ⟨?_, ?_, ?_⟩
  · intro h
    simp [AiService2.getOptimalCounter, h]
  · intro h
    cases avail with
    | false => simp [AiService2.getOptimalCounter]
    | true => simp [AiService2.getOptimalCounter, h]
  · intro ha hne
    obtain ⟨m, rest, hsort, hmax⟩ :=
      AiService2.head_sortByScoreDesc
        ((AiService2.activeCountersSupporting db serviceId).map
          (fun c => AiService2.ScoredCounter.mk c.id (AiService2.counterScore db c)))
        (by simpa using hne)
    refine ⟨m, hmax, ?_⟩
    rw [ha, AiService2.getOptimalCounter]
    simp only [Bool.true_eq_false, if_false]
    rw [if_neg (by simpa [List.length_eq_zero] using hne), hsort]

/-- Witness for C8 at Scenario C: the sole candidate counter (2 waiting
entries, 0 in service, average 10) scores `100 - 20 + 30 - 5 = 105` and is
returned. -/
theorem getOptimalCounter_spec_witness :
    AiService2.activeCountersSupporting exDb8 5 ≠ []
      ∧ AiService2.getOptimalCounter true exDb8 5 = some 1
      ∧ AiService2.counterScore exDb8 exCounter1 = 105 := by
  have hcand : AiService2.activeCountersSupporting exDb8 5 = [exCounter1] := rfl
  have hne : AiService2.activeCountersSupporting exDb8 5 ≠ [] := by
    rw [hcand]; simp
  obtain ⟨m, hm, hres⟩ := (getOptimalCounter_spec true exDb8 5).2.2 rfl hne
  rw [hcand] at hm
  have hm1 := AiService2.isFirstMax_singleton (by simpa using hm)
  have hscore : AiService2.counterScore exDb8 exCounter1 = 105 := by
    have h2 : AiService2.entriesAtCounter exDb8 1 = 2 := rfl
    have h0 : AiService2.inServiceAtCounter exDb8 1 = 0 := rfl
    rw [AiService2.counterScore, exCounter1, h2, h0]
    norm_num
  refine ⟨hne, ?_, hscore⟩
  rw [hres, hm1]
  rfl

/-! ## Lemmas about updating the document found by id -/

/-- `findByIdAndUpdate` through the embedding: mapping an update over the
documents matching a predicate commutes with `find?`, provided the update
keeps matching documents matching. -/
theorem find?_update {α : Type} (p : α → Bool) (f : α → α)
    (hp : ∀ a, p a = true → p (f a) = true) :
    ∀ l : List α,
      (l.map (fun a => if p a then f a else a)).find? p
        = match l.find? p with
          | some a => some (f a)
          | none => none := by
  intro l
  induction l with
  | nil => rfl
  | cons a l ih =>
    by_cases ha : p a = true
    · simp only [List.map_cons, if_pos ha, List.find?_cons_of_pos _ (hp a ha),
        List.find?_cons_of_pos _ ha]
    · simp only [List.map_cons, if_neg ha, List.find?_cons_of_neg _ ha,
        List.find?_cons_of_neg _ ha, ih]

namespace QueueEntryController

/-- Every branch of the per-status updates writes the requested status. -/
theorem status_applyStatusUpdates (e : EntryDoc) (target : EStatus)
    (counterParam : Option Nat) (now : ℤ) :
    (applyStatusUpdates e target counterParam now).status = target := by
  cases target <;> rfl

/-- The per-status updates never change the entry's id. -/
theorem id_applyStatusUpdates (e : EntryDoc) (target : EStatus)
    (counterParam : Option Nat) (now : ℤ) :
    (applyStatusUpdates e target counterParam now).id = e.id := by
  cases target <;> rfl

/-! ## C1 — admission preconditions (corrected) -/

/-- **C1 (amended)**: `joinQueue` checks, in order: (1) the queue exists —
else `notFound` — and is active — else the distinct `notActive` failure (an
HTTP 400 with its own message, not `NotFound`); (2) no entry of the same
(customer, queue) pair — not (customer, service) — has status in
{waiting, called, in-service}, else `conflict`; (3) `currentCount <
maxCapacity`, else `capacityExceeded`.  Each failure returns the store
untouched: no entry is created and no occupancy changes. -/
theorem joinQueue_preconditions (db : SysDB)
    (userId queueId serviceId priorityArg : Nat) (now : ℤ) :
    (findQueueDoc db queueId = none →
      joinQueue db userId queueId serviceId priorityArg now
        = (JoinResult.notFound, db))
    ∧ (∀ q, findQueueDoc db queueId = some q → q.status ≠ QMStatus.active →
      joinQueue db userId queueId serviceId priorityArg now
        = (JoinResult.notActive, db))
    ∧ (∀ q, findQueueDoc db queueId = some q → q.status = QMStatus.active →
      hasActiveEntry db userId queueId = true →
      joinQueue db userId queueId serviceId priorityArg now
        = (JoinResult.conflict, db))
    ∧ (∀ q, findQueueDoc db queueId = some q → q.status = QMStatus.active →
      hasActiveEntry db userId queueId = false →
      (q.maxCapacity : ℤ) ≤ q.currentCount →
      joinQueue db userId queueId serviceId priorityArg now
        = (JoinResult.capacityExceeded, db)) := by
  refine ⟨?_, ?_, ?_, ?_⟩
  · intro h
    simp [joinQueue, h]
  · intro q hq hst
    simp [joinQueue, hq, hst]
  · intro q hq hst hdup
    simp [joinQueue, hq, hst, hdup]
  · intro q hq hst hdup hcap
    simp [joinQueue, hq, hst, hdup, hcap]

/-- Witness for C1 (amended), at the spec's Scenario E: a queue at its
capacity ceiling rejects admission with `capacityExceeded` and the store —
entries and occupancy alike — is unchanged. -/
theorem joinQueue_preconditions_witness :
    findQueueDoc exDbFull 1 = some exQFull
      ∧ exQFull.status = QMStatus.active
      ∧ hasActiveEntry exDbFull 9 1 = false
      ∧ (exQFull.maxCapacity : ℤ) ≤ exQFull.currentCount
      ∧ joinQueue exDbFull 9 1 2 0 0 = (JoinResult.capacityExceeded, exDbFull) := by
  refine ⟨rfl, rfl, rfl, by decide, ?_⟩
  exact (joinQueue_preconditions exDbFull 9 1 2 0 0).2.2.2 exQFull rfl rfl rfl
    (by decide)

/-- Counterexample to C1 as stated, on two points: (a) a request naming an
existing but inactive queue fails with the distinct `notActive` error, not
`NotFound`; (b) the duplicate check is keyed on (customer, queue), not
(customer, service): a customer actively waiting for service 2 in queue 1
is admitted to queue 2 for the same service instead of receiving
`Conflict`. -/
theorem joinQueue_preconditions_cex :
    (joinQueue exDbInactive 1 1 2 0 0).1 = JoinResult.notActive
      ∧ JoinResult.notActive ≠ JoinResult.notFound
      ∧ (∃ e ∈ exDbTwoQueues.entries,
          e.customer = 1 ∧ e.service = 2 ∧ isActiveStatus e.status = true)
      ∧ (joinQueue exDbTwoQueues 1 2 2 0 0).1 ≠ JoinResult.conflict := by
  refine ⟨by decide, by decide, ?_, by decide⟩
  refine ⟨_, List.mem_cons_self _ _, rfl, rfl, rfl⟩

/-! ## C2 — terminal immutability (corrected) -/

/-- **C2 (amended)**: the transition operation performs no state-machine
validation at all: for every existing entry — whatever its current status,
terminal ones included — and every requested target status, the operation
reports success and writes the target status onto the entry.  Entries can
therefore leave terminal states; nothing ever returns an InvalidTransition
error (there is no such error in the code). -/
theorem transition_unvalidated (db : SysDB) (entryId : Nat) (target : EStatus)
    (counterParam : Option Nat) (now : ℤ) (e : EntryDoc)
    (he : findEntry db entryId = some e) :
    (updateQueueEntryStatus db entryId target counterParam now).1
        = UpdateResult.updated
    ∧ ∃ e', findEntry
          (updateQueueEntryStatus db entryId target counterParam now).2 entryId
        = some e' ∧ e'.status = target := by
  constructor
  · simp [updateQueueEntryStatus, he]
  · refine ⟨applyStatusUpdates e target counterParam now, ?_,
      status_applyStatusUpdates e target counterParam now⟩
    simp only [updateQueueEntryStatus, he]
    simp only [findEntry]
    rw [find?_update (fun x => x.id == entryId)
      (fun x => applyStatusUpdates x target counterParam now)
      (fun a hpa => by
        simp only []
        rw [id_applyStatusUpdates]
        exact hpa)]
    rw [show db.entries.find? (fun x => x.id == entryId) = some e from he]

/-- Witness for C2 (amended): the completed entry of `exDbTerm` is happily
moved to `called`. -/
theorem transition_unvalidated_witness :
    (findEntry exDbTerm 1).isSome = true
      ∧ (updateQueueEntryStatus exDbTerm 1 EStatus.called none 5).1
          = UpdateResult.updated
      ∧ (∃ e', findEntry (updateQueueEntryStatus exDbTerm 1 EStatus.called none 5).2 1
          = some e' ∧ e'.status = EStatus.called) := by
  have h := transition_unvalidated exDbTerm 1 EStatus.called none 5
    { id := 1, queue := 1, customer := 1, service := 2,
      counter := none, status := EStatus.completed, priority := 0,
      estimatedWaitTime := 0, actualWaitTime := none,
      joinedAt := some 0, calledAt := none, startedAt := some 0,
      completedAt := some 60000, entryNumber := 1 } rfl
  exact ⟨rfl, h.1, h.2⟩

/-- Counterexample to C2 as stated: an entry with terminal status
`completed` is transitioned to `called`; the operation succeeds (no
InvalidTransition) and the entry's status changes — the entry leaves its
terminal state. -/
theorem terminal_transition_cex :
    (findEntry exDbTerm 1).map (fun e => e.status) = some EStatus.completed
      ∧ (updateQueueEntryStatus exDbTerm 1 EStatus.called none 5).1
          = UpdateResult.updated
      ∧ (findEntry (updateQueueEntryStatus exDbTerm 1 EStatus.called none 5).2 1).map
          (fun e => e.status) = some EStatus.called := by decide

/-! ## C9 — the rolling average update -/

/-- **C9**: completing an entry that has an assigned counter and a recorded
`startedAt` updates that counter's rolling average with the measured service
time `d = round((now − startedAt) in minutes)`: the new average is `d` when
the prior average is 0 and `0.8·a + 0.2·d` when `a > 0`; transitions to
`cancelled` or `no-show` leave every counter untouched. -/
theorem rolling_average (db : SysDB) (entryId : Nat) (counterParam : Option Nat)
    (now : ℤ) (e : EntryDoc) (counterId : Nat) (st : ℤ) (c : CounterDoc)
    (he : findEntry db entryId = some e) (hec : e.counter = some counterId)
    (hst : e.startedAt = some st) (hc : findCounter db counterId = some c) :
    (∃ c', findCounter
          (updateQueueEntryStatus db entryId EStatus.completed counterParam now).2
          counterId
        = some c'
      ∧ (c.averageServiceTime = 0 →
          c'.averageServiceTime
            = ((jsRound (((now - st : ℤ) : ℚ) / msPerMinute) : ℤ) : ℚ))
      ∧ (0 < c.averageServiceTime →
          c'.averageServiceTime
            = c.averageServiceTime * (8/10)
              + ((jsRound (((now - st : ℤ) : ℚ) / msPerMinute) : ℤ) : ℚ) * (2/10)))
    ∧ (∀ target, target = EStatus.cancelled ∨ target = EStatus.no_show →
        (updateQueueEntryStatus db entryId target counterParam now).2.counters
          = db.counters) := by
  constructor
  · have hcounters :
        (updateQueueEntryStatus db entryId EStatus.completed counterParam now).2.counters
          = updateCounterAverage db.counters e now := by
      simp [updateQueueEntryStatus, he]
    refine ⟨{ c with averageServiceTime :=
        if c.averageServiceTime = 0 then
          ((jsRound (((now - st : ℤ) : ℚ) / msPerMinute) : ℤ) : ℚ)
        else c.averageServiceTime * (8/10)
          + ((jsRound (((now - st : ℤ) : ℚ) / msPerMinute) : ℤ) : ℚ) * (2/10) },
      ?_, ?_, ?_⟩
    · show (updateQueueEntryStatus db entryId EStatus.completed counterParam now).2.counters.find?
        (fun cc => cc.id == counterId) = _
      rw [hcounters]
      simp only [updateCounterAverage, hec, hst]
      rw [find?_update (fun cc : CounterDoc => cc.id == counterId)
        (fun cc : CounterDoc => { cc with averageServiceTime :=
          if cc.averageServiceTime = 0 then
            ((jsRound (((now - st : ℤ) : ℚ) / msPerMinute) : ℤ) : ℚ)
          else cc.averageServiceTime * (8/10)
            + ((jsRound (((now - st : ℤ) : ℚ) / msPerMinute) : ℤ) : ℚ) * (2/10) })
        (fun a hpa => hpa)]
      rw [show db.counters.find? (fun cc : CounterDoc => cc.id == counterId)
        = some c from hc]
    · intro h0
      simp [h0]
    · intro hpos
      simp [ne_of_gt hpos]
  · intro target htgt
    rcases htgt with rfl | rfl <;> simp [updateQueueEntryStatus, he]

/-- Witness for C9: completing `exEntry9` at `now = 1200000` ms (service
time 20 minutes) moves the counter's average from 10 to
`0.8·10 + 0.2·20 = 12`. -/
theorem rolling_average_witness :
    findEntry exDb9 1 = some exEntry9
      ∧ exEntry9.counter = some 1
      ∧ exEntry9.startedAt = some 0
      ∧ findCounter exDb9 1 = some exCounter9
      ∧ (∃ c', findCounter
            (updateQueueEntryStatus exDb9 1 EStatus.completed none 1200000).2 1
          = some c' ∧ c'.averageServiceTime = 12) := by
  obtain ⟨⟨c', hfind, -, hpos⟩, -⟩ :=
    rolling_average exDb9 1 none 1200000 exEntry9 1 0 exCounter9 rfl rfl rfl rfl
  refine ⟨rfl, rfl, rfl, rfl, c', hfind, ?_⟩
  rw [hpos (by norm_num [exCounter9])]
  norm_num [exCounter9, jsRound, msPerMinute, Int.floor_eq_iff]

/-! ## C3 — counting lemmas -/

theorem countNonTerminal_cons (x : EntryDoc) (l : List EntryDoc)
    (queueId : Nat) :
    (countNonTerminal (x :: l) queueId : ℤ)
      = entryWeight queueId x + (countNonTerminal l queueId : ℤ) := by
  rw [countNonTerminal, countNonTerminal, entryWeight, List.filter_cons]
  by_cases h : (x.queue == queueId && !isTerminal x.status) = true
  · rw [if_pos h, if_pos h, List.length_cons]
    push_cast
    ring
  · rw [if_neg h, if_neg h]
    ring

theorem countNonTerminal_append (l : List EntryDoc) (x : EntryDoc)
    (queueId : Nat) :
    (countNonTerminal (l ++ [x]) queueId : ℤ)
      = (countNonTerminal l queueId : ℤ) + entryWeight queueId x := by
  rw [countNonTerminal, countNonTerminal, List.filter_append,
    List.length_append, entryWeight]
  by_cases h : (x.queue == queueId && !isTerminal x.status) = true
  · rw [if_pos h]
    simp [List.filter, h]
  · rw [if_neg h]
    simp [List.filter, h]

theorem countNonTerminal_map_update (f : EntryDoc → EntryDoc)
    (entryId : Nat) :
    ∀ entries : List EntryDoc, (entries.map (fun x => x.id)).Nodup →
      ∀ e, entries.find? (fun x => x.id == entryId) = some e →
      ∀ queueId,
        (countNonTerminal
            (entries.map (fun x => if x.id == entryId then f x else x))
            queueId : ℤ)
          = (countNonTerminal entries queueId : ℤ)
            + entryWeight queueId (f e) - entryWeight queueId e := by
  intro entries
  induction entries with
  | nil =>
    intro _ e he
    simp [List.find?] at he
  | cons a l ih =>
    intro hnd e he queueId
    have hnd' : a.id ∉ l.map (fun x => x.id)
        ∧ (l.map (fun x => x.id)).Nodup := by
      rw [List.map_cons] at hnd
      exact List.nodup_cons.mp hnd
    by_cases ha : (a.id == entryId) = true
    · simp only [List.find?, ha] at he
      injection he with he
      subst he
      have htail : l.map (fun x => if x.id == entryId then f x else x)
          = l := by
        have : ∀ x ∈ l, (if x.id == entryId then f x else x) = x := by
          intro x hx
          have hxne : (x.id == entryId) ≠ true := by
            intro hxe
            have hx1 : x.id = entryId := by simpa using hxe
            have ha1 : a.id = entryId := by simpa using ha
            have hmem : x.id ∈ l.map (fun x => x.id) :=
              List.mem_map_of_mem (fun x => x.id) hx
            rw [hx1, ← ha1] at hmem
            exact hnd'.1 hmem
          simp [hxne]
        calc l.map (fun x => if x.id == entryId then f x else x)
            = l.map id := List.map_congr_left this
          _ = l := List.map_id l
      rw [List.map_cons, if_pos ha, htail, countNonTerminal_cons,
        countNonTerminal_cons]
      ring
    · have haf : (a.id == entryId) = false := by
        simpa using ha
      simp only [List.find?, haf] at he
      rw [List.map_cons, if_neg ha, countNonTerminal_cons,
        countNonTerminal_cons, ih hnd'.2 e he queueId]
      ring

theorem entryWeight_of_terminal {e : EntryDoc} (queueId : Nat)
    (h : isTerminal e.status = true) : entryWeight queueId e = 0 := by
  simp [entryWeight, h]

theorem entryWeight_of_nonTerminal {e : EntryDoc} (queueId : Nat)
    (h : isTerminal e.status = false) :
    entryWeight queueId e = if e.queue == queueId then 1 else 0 := by
  by_cases hq : (e.queue == queueId) = true <;> simp [entryWeight, hq, h]

theorem le_foldr_max (l : List Nat) : ∀ x ∈ l, x ≤ l.foldr max 0 := by
  induction l with
  | nil => simp
  | cons a l ih =>
    intro x hx
    rcases List.mem_cons.mp hx with rfl | hx
    · exact le_max_left _ _
    · exact le_trans (ih x hx) (le_max_right _ _)

theorem freshId_not_mem (db : SysDB) :
    freshId db ∉ db.entries.map (fun e => e.id) := by
  intro h
  have hle := le_foldr_max (db.entries.map (fun e => e.id)) _ h
  rw [freshId] at hle
  omega

theorem mem_bumpQueueCount {queues : List QueueModelDoc} {queueId : Nat}
    {delta : ℤ} {q' : QueueModelDoc}
    (h : q' ∈ bumpQueueCount queues queueId delta) :
    ∃ q ∈ queues, q'.id = q.id
      ∧ q'.currentCount
        = q.currentCount + (if q.id == queueId then delta else 0) := by
  obtain ⟨q, hq, rfl⟩ := List.mem_map.mp h
  by_cases hid : (q.id == queueId) = true
  · exact ⟨q, hq, by simp [hid], by simp [hid]⟩
  · exact ⟨q, hq, by simp [hid], by simp [hid]⟩

/-- The per-status updates never change the owning queue. -/
theorem queue_applyStatusUpdates (e : EntryDoc) (target : EStatus)
    (counterParam : Option Nat) (now : ℤ) :
    (applyStatusUpdates e target counterParam now).queue = e.queue := by
  cases target <;> rfl

theorem entryIds_map_update (f : EntryDoc → EntryDoc)
    (hid : ∀ x, (f x).id = x.id) (entryId : Nat) (entries : List EntryDoc) :
    ((entries.map (fun x => if x.id == entryId then f x else x)).map
        (fun x => x.id))
      = entries.map (fun x => x.id) := by
  rw [List.map_map]
  apply List.map_congr_left
  intro x hx
  by_cases h : (x.id == entryId) = true <;> simp [Function.comp, h, hid]

/-- The invariant survives rewriting the entry found by id, whether the
rewrite keeps the entry non-terminal (occupancy untouched) or terminalizes
it (occupancy of its queue decremented). -/
theorem inv_update_general (db : SysDB) (entryId : Nat) (e : EntryDoc)
    (f : EntryDoc → EntryDoc) (cs : List CounterDoc)
    (hid : ∀ x, (f x).id = x.id) (hqu : ∀ x, (f x).queue = x.queue)
    (hfe : findEntry db entryId = some e)
    (hnon : isTerminal e.status = false)
    (h : Inv db) :
    (isTerminal (f e).status = false →
      Inv { queues := db.queues
            entries := db.entries.map (fun x => if x.id == entryId then f x else x)
            counters := cs })
    ∧ (isTerminal (f e).status = true →
      Inv { queues := bumpQueueCount db.queues e.queue (-1)
            entries := db.entries.map (fun x => if x.id == entryId then f x else x)
            counters := cs }) := by
  obtain ⟨hnd, hocc⟩ := h
  have hnd2 : ((db.entries.map
      (fun x => if x.id == entryId then f x else x)).map (fun x => x.id)).Nodup := by
    rw [entryIds_map_update f hid entryId db.entries]
    exact hnd
  have hcount := countNonTerminal_map_update f entryId db.entries hnd e hfe
  constructor
  · intro hf
    refine ⟨hnd2, ?_⟩
    intro q hq
    have hoccq := hocc q hq
    have hc := hcount q.id
    rw [entryWeight_of_nonTerminal _ hf, hqu,
      entryWeight_of_nonTerminal _ hnon] at hc
    show q.currentCount = (countNonTerminal
      (db.entries.map (fun x => if x.id == entryId then f x else x)) q.id : ℤ)
    omega
  · intro hf
    refine ⟨hnd2, ?_⟩
    intro q' hq'
    obtain ⟨q, hq, hideq, hcc⟩ := mem_bumpQueueCount hq'
    have hoccq := hocc q hq
    have hc := hcount q'.id
    rw [entryWeight_of_terminal _ hf,
      entryWeight_of_nonTerminal _ hnon, hideq] at hc
    show q'.currentCount = (countNonTerminal
      (db.entries.map (fun x => if x.id == entryId then f x else x)) q'.id : ℤ)
    rw [hideq]
    by_cases hqe : (q.id == e.queue) = true
    · have h1 : q.id = e.queue := by simpa using hqe
      have h2 : (e.queue == q.id) = true := by simp [h1]
      rw [if_pos hqe] at hcc
      rw [h2] at hc
      simp only [if_true] at hc
      omega
    · have h1 : q.id ≠ e.queue := by simpa using hqe
      have h2 : (e.queue == q.id) = false := by
        simp [Ne.symm h1]
      rw [if_neg hqe] at hcc
      rw [h2] at hc
      simp only [Bool.false_eq_true, if_false] at hc
      omega

/-- Appending a fresh-id non-terminal entry while incrementing its queue's
counter preserves the invariant. -/
theorem inv_admit (db : SysDB) (x : EntryDoc) (queueId : Nat)
    (cs : List CounterDoc) (hxid : x.id = freshId db) (hxq : x.queue = queueId)
    (hxst : isTerminal x.status = false) (h : Inv db) :
    Inv { queues := bumpQueueCount db.queues queueId 1
          entries := db.entries ++ [x]
          counters := cs } := by
  obtain ⟨hnd, hocc⟩ := h
  constructor
  · show ((db.entries ++ [x]).map (fun e => e.id)).Nodup
    rw [List.map_append, List.nodup_append]
    refine ⟨hnd, List.nodup_singleton _, ?_⟩
    intro a ha hmem
    simp only [List.map_singleton, List.mem_singleton] at hmem
    subst hmem
    rw [hxid] at ha
    exact freshId_not_mem db ha
  · intro q' hq'
    obtain ⟨q0, hq0, hideq, hcc⟩ := mem_bumpQueueCount hq'
    have hoccq := hocc q0 hq0
    show q'.currentCount = (countNonTerminal (db.entries ++ [x]) q'.id : ℤ)
    rw [countNonTerminal_append, hideq,
      entryWeight_of_nonTerminal _ hxst, hxq]
    by_cases hq0id : (q0.id == queueId) = true
    · have h1 : q0.id = queueId := by simpa using hq0id
      have h2 : (queueId == q0.id) = true := by simp [h1]
      rw [if_pos hq0id] at hcc
      rw [h2]
      simp only [if_true]
      omega
    · have h1 : q0.id ≠ queueId := by simpa using hq0id
      have h2 : (queueId == q0.id) = false := by simp [Ne.symm h1]
      rw [if_neg hq0id] at hcc
      rw [h2]
      simp only [Bool.false_eq_true, if_false]
      omega

/-- Admission preserves the occupancy invariant: failures leave the store
untouched; a success adds one waiting entry to the queue it increments. -/
theorem inv_joinQueue (db : SysDB) (userId queueId serviceId priorityArg : Nat)
    (now : ℤ) (h : Inv db) :
    Inv (joinQueue db userId queueId serviceId priorityArg now).2 := by
  cases hfq : findQueueDoc db queueId with
  | none => simpa [joinQueue, hfq] using h
  | some q =>
    simp only [joinQueue, hfq]
    by_cases hst : q.status ≠ QMStatus.active
    · rw [if_pos hst]
      exact h
    · rw [if_neg hst]
      by_cases hdup : hasActiveEntry db userId queueId = true
      · rw [if_pos hdup]
        exact h
      · rw [if_neg hdup]
        by_cases hcap : (q.maxCapacity : ℤ) ≤ q.currentCount
        · rw [if_pos hcap]
          exact h
        · rw [if_neg hcap]
          exact inv_admit db _ queueId db.counters rfl rfl rfl h

/-- Status transitions on non-terminal entries preserve the invariant. -/
theorem inv_updateQueueEntryStatus (db : SysDB) (entryId : Nat)
    (target : EStatus) (counterParam : Option Nat) (now : ℤ) (h : Inv db)
    (hgood : ∀ e, findEntry db entryId = some e →
      isTerminal e.status = false) :
    Inv (updateQueueEntryStatus db entryId target counterParam now).2 := by
  cases hfe : findEntry db entryId with
  | none => simpa [updateQueueEntryStatus, hfe] using h
  | some e =>
    have hnon := hgood e hfe
    have hgen := inv_update_general db entryId e
      (fun x => applyStatusUpdates x target counterParam now)
      (if target = EStatus.completed then
        updateCounterAverage db.counters e now else db.counters)
      (fun x => id_applyStatusUpdates x target counterParam now)
      (fun x => queue_applyStatusUpdates x target counterParam now)
      hfe hnon ⟨h.1, h.2⟩
    by_cases hterm : target = EStatus.completed ∨ target = EStatus.cancelled
        ∨ target = EStatus.no_show
    · have hft : isTerminal
          (applyStatusUpdates e target counterParam now).status = true := by
        rw [status_applyStatusUpdates]
        rcases hterm with rfl | rfl | rfl <;> rfl
      have hres := hgen.2 hft
      simp only [updateQueueEntryStatus, hfe, if_pos hterm]
      exact hres
    · have hft : isTerminal
          (applyStatusUpdates e target counterParam now).status = false := by
        rw [status_applyStatusUpdates]
        cases target <;> simp_all [isTerminal]
      have hres := hgen.1 hft
      simp only [updateQueueEntryStatus, hfe, if_neg hterm]
      exact hres

/-- Cancellation preserves the invariant: it only ever cancels a waiting or
called — hence non-terminal — entry, decrementing its queue once. -/
theorem inv_cancelQueueEntry (db : SysDB) (userId : Nat) (isCustomer : Bool)
    (entryId : Nat) (h : Inv db) :
    Inv (cancelQueueEntry db userId isCustomer entryId).2 := by
  cases hfe : findEntry db entryId with
  | none => simpa [cancelQueueEntry, hfe] using h
  | some e =>
    simp only [cancelQueueEntry, hfe]
    split
    · exact h
    · split
      · exact h
      · rename_i hcan
        have hnon : isTerminal e.status = false := by
          rcases not_not.mp hcan with hw | hc
          · rw [hw]; rfl
          · rw [hc]; rfl
        have hgen := inv_update_general db entryId e
          (fun x => { x with status := EStatus.cancelled }) db.counters
          (fun x => rfl) (fun x => rfl) hfe hnon h
        exact hgen.2 rfl

/-- Every well-aimed request preserves the invariant. -/
theorem inv_applyOp (db : SysDB) (op : Op) (h : Inv db)
    (hgood : goodOp db op = true) : Inv (applyOp db op) := by
  cases op with
  | join u q s p now => exact inv_joinQueue db u q s p now h
  | transition eid target cp now =>
    refine inv_updateQueueEntryStatus db eid target cp now h ?_
    intro e hfe
    simp only [goodOp, hfe] at hgood
    simpa using hgood
  | cancel u b eid => exact inv_cancelQueueEntry db u b eid h

/-- The invariant is preserved by every well-aimed request sequence. -/
theorem inv_runOps (db : SysDB) (ops : List Op) (h : Inv db)
    (hops : goodSeq db ops = true) : Inv (runOps db ops) := by
  induction ops generalizing db with
  | nil => exact h
  | cons op ops ih =>
    rw [goodSeq, Bool.and_eq_true] at hops
    exact ih (applyOp db op) (inv_applyOp db op h hops.1) hops.2

/-- **C3 (amended)**: the occupancy counter is decremented by every
transition call whose requested target is terminal and by every successful
cancellation, and by nothing else; because the transition endpoint performs
no status validation, a second terminal-target call on an already-terminal
entry decrements again.  Restricted to well-aimed sequences — ones whose
transition calls always address a not-yet-terminal entry, the workflow the
system intends — every queue's occupancy equals its number of non-terminal
entries after any sequence of admit, transition and cancel operations
started from an empty store. -/
theorem occupancy_conservation (db : SysDB) (ops : List Op)
    (hentries : db.entries = [])
    (hzero : ∀ q ∈ db.queues, q.currentCount = 0)
    (hops : goodSeq db ops = true) :
    ∀ q ∈ (runOps db ops).queues,
      q.currentCount = (countNonTerminal (runOps db ops).entries q.id : ℤ) := by
  have hinv : Inv db := by
    constructor
    · show (db.entries.map (fun e => e.id)).Nodup
      rw [hentries]
      exact List.nodup_nil
    · intro q hq
      rw [hzero q hq, hentries]
      rfl
  exact (inv_runOps db ops hinv hops).2

/-- Witness for C3 (amended): after admit → in-service → completed the
queue's occupancy is back to 0 and equals its non-terminal entry count. -/
theorem occupancy_conservation_witness :
    exDb3.entries = []
      ∧ (∀ q ∈ exDb3.queues, q.currentCount = 0)
      ∧ goodSeq exDb3 exOps3 = true
      ∧ ∀ q ∈ (runOps exDb3 exOps3).queues,
          q.currentCount
            = (countNonTerminal (runOps exDb3 exOps3).entries q.id : ℤ) := by
  refine ⟨rfl, by decide, by decide, ?_⟩
  exact occupancy_conservation exDb3 exOps3 rfl (by decide) (by decide)

/-- Counterexample to C3 as stated: completing the same entry twice
decrements its queue's occupancy twice — the counter ends at −1 while the
queue has 0 non-terminal entries, so the decrement is not "exactly once per
entry" and occupancy does not equal the non-terminal count. -/
theorem occupancy_double_decrement_cex :
    ((findQueueDoc (updateQueueEntryStatus
          (updateQueueEntryStatus exDbC3 1 EStatus.completed none 5).2
          1 EStatus.completed none 6).2 1).map (fun q => q.currentCount)
        = some (-1))
      ∧ countNonTerminal (updateQueueEntryStatus
          (updateQueueEntryStatus exDbC3 1 EStatus.completed none 5).2
          1 EStatus.completed none 6).2.entries 1 = 0
      ∧ ((-1 : ℤ) ≠ 0) := by decide

end QueueEntryController

end SmartQ
